import Mathlib

/-!
Verification of the streaming_django repository: the row producer
`big_csv` in `download/views.py` and the two delivery strategies
`download_csv` (buffered) and `download_csv_streaming` (streaming).

Text is modelled as `List Char` (Python `str`).  The CSV encoder models
Python's `csv.writer` with its defaults: delimiter `,`, quote char `"`,
QUOTE_MINIMAL quoting, line terminator `"\r\n"`, and `str()` conversion
of non-string cells.
-/

/-- A Python string, modelled as its list of characters. -/
abbrev Str := List Char

/-- Decimal rendering of a natural number, as Python's `str(int)` produces
for non-negative values (no sign, no leading zeros except for `0` itself).
Accumulator-based: digits of `n` are prepended to `acc`; the fuel argument
makes the recursion structural, and any fuel above `n` is enough. -/
def natStrAux : Nat → Nat → Str → Str
  | 0, _, acc => acc
  | fuel + 1, n, acc =>
    let d : Char := Char.ofNat (48 + n % 10)
    if n < 10 then d :: acc else natStrAux fuel (n / 10) (d :: acc)

/-- Decimal rendering of a natural number (Python `str(n)` for `n ≥ 0`). -/
def natStr (n : Nat) : Str := natStrAux (n + 1) n []

/-- `csv.writer` QUOTE_MINIMAL test: a field is quoted iff it contains the
delimiter, the quote character, or a character of the line terminator. -/
def mustQuote (f : Str) : Bool :=
  f.any (fun c => c == ',' || c == '"' || c == '\r' || c == '\n')

/-- Double every embedded quote character, as the CSV encoder does inside
a quoted field. -/
def escapeQuotes (f : Str) : Str :=
  f.flatMap (fun c => if c == '"' then ['"', '"'] else [c])

/-- Encode one CSV field under QUOTE_MINIMAL. -/
def encodeField (f : Str) : Str :=
  if mustQuote f then '"' :: (escapeQuotes f ++ ['"']) else f

/-- Join already-encoded fields with the `,` delimiter. -/
def joinFields : List Str → Str
  | [] => []
  | [f] => f
  | f :: rest => f ++ ',' :: joinFields rest

/-- `csv.writer(output).writerow(fields)`: encoded fields joined by the
delimiter, terminated by `"\r\n"` (the writer's default line terminator). -/
def writerow (fs : List Str) : Str :=
  joinFields (fs.map encodeField) ++ ['\r', '\n']

/-- The chunk `big_csv` yields for loop index `row`: the header row for
`row = 0`, else the data row `Hello,world,<row>`. -/
def chunkOf (row : Nat) : Str :=
  if row == 0 then
    writerow ["One".toList, "Two".toList, "Three".toList]
  else
    writerow ["Hello".toList, "world".toList, natStr row]

/-- `big_csv(num_rows)` from `download/views.py`: one chunk per element of
`range(num_rows)` (empty for any `num_rows ≤ 0`, as Python's `range` is). -/
def big_csv (num_rows : Int) : List Str :=
  (List.range num_rows.toNat).map chunkOf

/-- A response body: fully materialized (buffered) or a finite sequence of
chunks handed to the transport (streamed). -/
inductive Body
  | buffered (data : Str)
  | streamed (chunks : List Str)
deriving DecidableEq

/-- The text a client reading the whole response receives. -/
def Body.drain : Body → Str
  | .buffered s => s
  | .streamed cs => cs.flatten

/-- A response: body, content type, and the extra headers the views set. -/
structure HttpResp where
  body : Body
  contentType : Str
  headers : List (Str × Str)
deriving DecidableEq

/-- Look a header up by exact name. -/
def getHeader (r : HttpResp) (name : Str) : Option Str :=
  (r.headers.find? (fun p => p.1 == name)).map (fun p => p.2)

/-- The row count `download_csv` passes to `big_csv` (views.py line 26). -/
def rowCountBuffered : Nat := 100

/-- The row count `download_csv_streaming` passes to `big_csv`
(views.py line 40). -/
def rowCountStreaming : Nat := 100

/-- `download_csv`, abstracted over the row count: join all chunks into one
string, respond with it, content type `text/csv`, attachment disposition,
and `Content-Length` set to `len(csv_file)`. -/
def downloadCsvWith (n : Int) : HttpResp :=
  let csv_file := (big_csv n).flatten
  { body := .buffered csv_file
    contentType := "text/csv".toList
    headers := [("Content-Disposition".toList, "attachment; filename=big.csv".toList),
                ("Content-Length".toList, natStr csv_file.length)] }

/-- `download_csv_streaming`, abstracted over the row count: hand the chunk
sequence to the transport; same content type and disposition, and no
`Content-Length` header. -/
def downloadCsvStreamingWith (n : Int) : HttpResp :=
  { body := .streamed (big_csv n)
    contentType := "text/csv".toList
    headers := [("Content-Disposition".toList, "attachment; filename=big.csv".toList)] }

/-- The view `download_csv` as written: row count 100. -/
def download_csv : HttpResp := downloadCsvWith (rowCountBuffered : Int)

/-- The view `download_csv_streaming` as written: row count 100. -/
def download_csv_streaming : HttpResp := downloadCsvStreamingWith (rowCountStreaming : Int)

/-- Byte length of a string once UTF-8 encoded (Django encodes the body
with the utf-8 charset before sending). -/
def byteLen (s : Str) : Nat := (s.map Char.utf8Size).sum

/-- Parse the decimal digits of a header value back to a number. -/
def decodeNat (s : Str) : Nat := s.foldl (fun a c => 10 * a + (c.toNat - 48)) 0

/-- Strip one trailing `"\r\n"` line terminator, if present. -/
def stripLineTerm (s : Str) : Str :=
  match s.reverse with
  | b :: a :: rest => if a == '\r' && b == '\n' then rest.reverse else s
  | _ => s

/-- Split on the `,` delimiter (decoder for unquoted CSV records). -/
def splitComma : Str → List Str
  | [] => [[]]
  | c :: rest =>
    if c == ',' then [] :: splitComma rest
    else
      match splitComma rest with
      | [] => [[c]]
      | f :: fs => (c :: f) :: fs

/-- Decode one unquoted CSV chunk into its fields. -/
def parseCsvLine (s : Str) : List Str := splitComma (stripLineTerm s)

example : natStr 0 = ['0'] := by decide
example : natStr 105 = ['1', '0', '5'] := by decide
example : chunkOf 0 = "One,Two,Three\r\n".toList := by decide
example : chunkOf 7 = "Hello,world,7\r\n".toList := by decide
example : big_csv 3 = ["One,Two,Three\r\n".toList, "Hello,world,1\r\n".toList,
    "Hello,world,2\r\n".toList] := by decide
example : big_csv (-4) = [] := by decide
example : parseCsvLine (chunkOf 12) = ["Hello".toList, "world".toList, ['1', '2']] := by
  decide
example : decodeNat (natStr 345) = 345 := by decide
example : byteLen (chunkOf 0) = 15 := by decide

/-! ### Digit-string lemmas -/

theorem natStrAux_eq (n : Nat) :
    ∀ fuel acc, n < fuel → natStrAux fuel n acc = natStr n ++ acc := by
  induction n using Nat.strong_induction_on with
  | _ n IH =>
    intro fuel acc hfuel
    match fuel with
    | 0 => omega
    | f + 1 =>
      by_cases h10 : n < 10
      · simp [natStrAux, natStr, h10]
      · have hdiv : n / 10 < n := Nat.div_lt_self (by omega) (by omega)
        have hLHS : natStrAux (f + 1) n acc =
            natStrAux f (n / 10) (Char.ofNat (48 + n % 10) :: acc) := by
          simp [natStrAux, h10]
        have hRHS : natStr n =
            natStrAux n (n / 10) [Char.ofNat (48 + n % 10)] := by
          simp [natStr, natStrAux, h10]
        rw [hLHS, hRHS, IH (n / 10) hdiv f _ (by omega),
          IH (n / 10) hdiv n _ (by omega), List.append_assoc]
        rfl

theorem natStr_lt_ten (n : Nat) (h : n < 10) :
    natStr n = [Char.ofNat (48 + n)] := by
  have : n % 10 = n := Nat.mod_eq_of_lt h
  simp [natStr, natStrAux, h, this]

theorem natStr_ge_ten (n : Nat) (h : 10 ≤ n) :
    natStr n = natStr (n / 10) ++ [Char.ofNat (48 + n % 10)] := by
  have hdiv : n / 10 < n := Nat.div_lt_self (by omega) (by omega)
  have : natStr n = natStrAux n (n / 10) [Char.ofNat (48 + n % 10)] := by
    simp [natStr, natStrAux, Nat.not_lt.mpr h]
  rw [this, natStrAux_eq (n / 10) n _ (by omega)]

theorem mem_natStr {n : Nat} {c : Char} (hc : c ∈ natStr n) :
    ∃ k, k < 10 ∧ c = Char.ofNat (48 + k) := by
  induction n using Nat.strong_induction_on with
  | _ n IH =>
    by_cases h10 : n < 10
    · rw [natStr_lt_ten n h10] at hc
      simp at hc
      exact ⟨n, h10, hc⟩
    · rw [natStr_ge_ten n (by omega)] at hc
      rcases List.mem_append.mp hc with h | h
      · exact IH (n / 10) (Nat.div_lt_self (by omega) (by omega)) h
      · simp at h
        exact ⟨n % 10, Nat.mod_lt _ (by omega), h⟩

theorem digit_toNat : ∀ k < 10, (Char.ofNat (48 + k)).toNat = 48 + k := by decide

theorem digit_ascii : ∀ k < 10, (Char.ofNat (48 + k)).toNat < 128 := by decide

theorem digit_not_special : ∀ k < 10,
    (Char.ofNat (48 + k) == ',' || Char.ofNat (48 + k) == '"' ||
      Char.ofNat (48 + k) == '\r' || Char.ofNat (48 + k) == '\n') = false := by decide

theorem digit_ne_comma : ∀ k < 10, Char.ofNat (48 + k) ≠ ',' := by decide

theorem natStr_ascii {n : Nat} {c : Char} (hc : c ∈ natStr n) : c.toNat < 128 := by
  obtain ⟨k, hk, rfl⟩ := mem_natStr hc
  exact digit_ascii k hk

theorem mustQuote_natStr (n : Nat) : mustQuote (natStr n) = false := by
  rw [mustQuote, List.any_eq_false]
  intro c hc
  obtain ⟨k, hk, rfl⟩ := mem_natStr hc
  simp [digit_not_special k hk]

theorem comma_not_mem_natStr (n : Nat) : ',' ∉ natStr n := by
  intro hc
  obtain ⟨k, hk, h⟩ := mem_natStr hc
  exact digit_ne_comma k hk h.symm

theorem foldl_natStr (n : Nat) :
    ∀ s : Nat, (natStr n).foldl (fun a c => 10 * a + (c.toNat - 48)) s =
      s * 10 ^ (natStr n).length + n := by
  induction n using Nat.strong_induction_on with
  | _ n IH =>
    intro s
    by_cases h10 : n < 10
    · rw [natStr_lt_ten n h10]
      have hd := digit_toNat n h10
      simp [List.foldl, hd]
      omega
    · rw [natStr_ge_ten n (by omega), List.foldl_append, List.length_append]
      have hd := digit_toNat (n % 10) (Nat.mod_lt _ (by omega))
      rw [IH (n / 10) (Nat.div_lt_self (by omega) (by omega)) s]
      simp [hd]
      have hmod : 10 * (n / 10) + n % 10 = n := by omega
      rw [pow_succ]
      ring_nf
      omega

theorem decodeNat_natStr (n : Nat) : decodeNat (natStr n) = n := by
  have h := foldl_natStr n 0
  simpa [decodeNat] using h

/-! ### CSV decoding lemmas -/

theorem splitComma_of_no_comma (a : Str) (h : ',' ∉ a) : splitComma a = [a] := by
  induction a with
  | nil => rfl
  | cons c a ih =>
    have hc : c ≠ ',' := fun hcc => h (hcc ▸ List.mem_cons_self c a)
    have ha : ',' ∉ a := fun hm => h (List.mem_cons_of_mem c hm)
    simp [splitComma, hc, ih ha]

theorem splitComma_append (a b : Str) (h : ',' ∉ a) :
    splitComma (a ++ ',' :: b) = a :: splitComma b := by
  induction a with
  | nil => simp [splitComma]
  | cons c a ih =>
    have hc : c ≠ ',' := fun hcc => h (hcc ▸ List.mem_cons_self c a)
    have ha : ',' ∉ a := fun hm => h (List.mem_cons_of_mem c hm)
    simp [splitComma, hc, ih ha]

theorem stripLineTerm_append (a : Str) :
    stripLineTerm (a ++ ['\r', '\n']) = a := by
  simp [stripLineTerm, List.reverse_append]

theorem encodeField_of_plain {f : Str} (h : mustQuote f = false) :
    encodeField f = f := by
  simp [encodeField, h]

/-! ### Chunk shape lemmas -/

theorem chunkOf_zero : chunkOf 0 = "One,Two,Three\r\n".toList := by decide

theorem chunkOf_pos (i : Nat) (h : i ≠ 0) :
    chunkOf i = "Hello,world,".toList ++ natStr i ++ ['\r', '\n'] := by
  have hbeq : (i == 0) = false := by simp [h]
  rw [chunkOf, hbeq]
  simp only [Bool.false_eq_true, if_false, writerow, List.map]
  rw [encodeField_of_plain (mustQuote_natStr i),
    encodeField_of_plain (f := "Hello".toList) (by decide),
    encodeField_of_plain (f := "world".toList) (by decide)]
  simp [joinFields]

theorem parse_chunkOf_zero :
    parseCsvLine (chunkOf 0) = ["One".toList, "Two".toList, "Three".toList] := by
  decide

theorem parse_chunkOf_pos (i : Nat) (h : i ≠ 0) :
    parseCsvLine (chunkOf i) = ["Hello".toList, "world".toList, natStr i] := by
  rw [parseCsvLine, chunkOf_pos i h, stripLineTerm_append]
  have hsplit : "Hello,world,".toList ++ natStr i =
      "Hello".toList ++ ',' :: ("world".toList ++ ',' :: natStr i) := by
    simp
  rw [hsplit, splitComma_append _ _ (by decide),
    splitComma_append _ _ (by decide),
    splitComma_of_no_comma _ (comma_not_mem_natStr i)]

/-! ### ASCII and byte-length lemmas -/

theorem utf8Size_of_ascii (c : Char) (h : c.toNat < 128) : c.utf8Size = 1 := by
  have hv : c.val ≤ UInt32.ofNatCore 0x7F (by decide) := by
    rw [UInt32.le_def, BitVec.le_def]
    show c.toNat ≤ 127
    omega
  simp only [Char.utf8Size]
  rw [if_pos hv]

theorem helloWorldPrefix_ascii : ∀ c ∈ "Hello,world,".toList, c.toNat < 128 := by
  decide

theorem crlf_ascii : ∀ c ∈ ['\r', '\n'], c.toNat < 128 := by decide

theorem mem_chunkOf_ascii (i : Nat) : ∀ c ∈ chunkOf i, c.toNat < 128 := by
  by_cases h : i = 0
  · subst h
    decide
  · rw [chunkOf_pos i h]
    intro c hc
    rcases List.mem_append.mp hc with hc | hc
    · rcases List.mem_append.mp hc with hc | hc
      · exact helloWorldPrefix_ascii c hc
      · exact natStr_ascii hc
    · exact crlf_ascii c hc

theorem byteLen_eq_length (s : Str) : (∀ c ∈ s, c.toNat < 128) →
    byteLen s = s.length := by
  induction s with
  | nil => intro _; rfl
  | cons c s ih =>
    intro h
    have hc := h c (List.mem_cons_self c s)
    have hs : ∀ x ∈ s, x.toNat < 128 := fun x hx => h x (List.mem_cons_of_mem c hx)
    rw [byteLen, List.map_cons, List.sum_cons, utf8Size_of_ascii c hc,
      List.length_cons]
    have hrec : byteLen s = s.length := ih hs
    rw [byteLen] at hrec
    omega

theorem byteLen_big_csv_flatten (n : Int) :
    byteLen (big_csv n).flatten = (big_csv n).flatten.length := by
  refine byteLen_eq_length _ (fun c hc => ?_)
  obtain ⟨chunk, hchunk, hcmem⟩ := List.mem_flatten.mp hc
  rw [big_csv] at hchunk
  obtain ⟨i, _, rfl⟩ := List.mem_map.mp hchunk
  exact mem_chunkOf_ascii i c hcmem

/-! ### Generator step semantics (the lazy, single-pass view of big_csv) -/

/-- The state of one `big_csv` generator call: the requested row count and
the loop counter of the suspended `for` loop. -/
structure GenState where
  numRows : Int
  cur : Nat
deriving DecidableEq

/-- Calling `big_csv(n)` creates a fresh generator whose loop has not
started. -/
def mkGen (n : Int) : GenState := ⟨n, 0⟩

/-- One `next()` call: yield the chunk for the current loop index and
advance, or stop when the range is exhausted. -/
def genNext (g : GenState) : Option (Str × GenState) :=
  if g.cur < g.numRows.toNat then some (chunkOf g.cur, ⟨g.numRows, g.cur + 1⟩)
  else none

/-- Drive a generator to exhaustion, collecting every yielded chunk; the
fuel argument makes the recursion structural. -/
def genRunFuel : Nat → GenState → List Str
  | 0, _ => []
  | fuel + 1, g =>
    match genNext g with
    | none => []
    | some (c, g2) => c :: genRunFuel fuel g2

/-- All chunks one full consumption of a generator yields. -/
def genRun (g : GenState) : List Str :=
  genRunFuel (g.numRows.toNat - g.cur) g

theorem genRunFuel_spec : ∀ fuel g, g.numRows.toNat - g.cur ≤ fuel →
    genRunFuel fuel g =
      (List.range' g.cur (g.numRows.toNat - g.cur)).map chunkOf := by
  intro fuel
  induction fuel with
  | zero =>
    intro g hg
    have h0 : g.numRows.toNat - g.cur = 0 := by omega
    simp [genRunFuel, h0]
  | succ fuel ih =>
    intro g hg
    by_cases hlt : g.cur < g.numRows.toNat
    · obtain ⟨k, hk⟩ : ∃ k, g.numRows.toNat - g.cur = k + 1 :=
        ⟨g.numRows.toNat - g.cur - 1, by omega⟩
      have hnext : genNext g = some (chunkOf g.cur, ⟨g.numRows, g.cur + 1⟩) := by
        simp [genNext, hlt]
      have hrec : (⟨g.numRows, g.cur + 1⟩ : GenState).numRows.toNat -
          (⟨g.numRows, g.cur + 1⟩ : GenState).cur = k := by
        simp
        omega
      rw [genRunFuel, hnext]
      show chunkOf g.cur :: genRunFuel fuel ⟨g.numRows, g.cur + 1⟩ = _
      rw [ih ⟨g.numRows, g.cur + 1⟩ (by simp; omega), hrec, hk, List.range'_succ]
      simp
    · have h0 : g.numRows.toNat - g.cur = 0 := by omega
      have hnext : genNext g = none := by simp [genNext, hlt]
      rw [genRunFuel, hnext, h0]
      simp

theorem genRun_eq_big_csv (n : Int) : genRun (mkGen n) = big_csv n := by
  rw [genRun, genRunFuel_spec _ _ (Nat.le_refl _)]
  simp [mkGen, big_csv, List.range_eq_range']

/-! ### Claim theorems -/

/-- Claim C1: for every non-negative integer `n`, `big_csv n` yields a finite
sequence of exactly `n` chunks, and for `n = 0` it yields the empty
sequence. -/
theorem c1_big_csv_yields_n_chunks (n : Int) (h : 0 ≤ n) :
    ((big_csv n).length : Int) = n ∧ big_csv 0 = [] := by
  constructor
  · simp [big_csv, Int.toNat_of_nonneg h]
  · rfl

theorem c1_witness :
    (0 : Int) ≤ 5 ∧ (((big_csv 5).length : Int) = 5 ∧ big_csv 0 = []) :=
  ⟨by decide, c1_big_csv_yields_n_chunks 5 (by decide)⟩

/-- Claim C2: for every row count `n`, draining the streaming response body
yields byte-for-byte the buffered strategy's materialized body; the streaming
response carries no Content-Length header, and both responses carry content
type `text/csv` and the attachment disposition with filename `big.csv`. -/
theorem c2_streaming_refines_buffered (n : Int) :
    (downloadCsvStreamingWith n).body.drain = (downloadCsvWith n).body.drain
    ∧ getHeader (downloadCsvStreamingWith n) "Content-Length".toList = none
    ∧ (downloadCsvStreamingWith n).contentType = "text/csv".toList
    ∧ (downloadCsvWith n).contentType = "text/csv".toList
    ∧ getHeader (downloadCsvStreamingWith n) "Content-Disposition".toList =
        some "attachment; filename=big.csv".toList
    ∧ getHeader (downloadCsvWith n) "Content-Disposition".toList =
        some "attachment; filename=big.csv".toList :=
  ⟨rfl, rfl, rfl, rfl, rfl, rfl⟩

/-- Claim C3: for every `n` and every index `i` with `1 ≤ i < n`, the
`(i+1)`-th chunk of `big_csv n` (position `i` counting from 0) decodes to the
fields `Hello`, `world`, and the decimal rendering of the integer `i`. -/
theorem c3_data_rows (n : Int) (i : Nat) (h1 : 1 ≤ i) (h2 : (i : Int) < n) :
    (big_csv n)[i]? = some (chunkOf i)
    ∧ parseCsvLine (chunkOf i) = ["Hello".toList, "world".toList, natStr i]
    ∧ decodeNat (natStr i) = i := by
  refine ⟨?_, parse_chunkOf_pos i (by omega), decodeNat_natStr i⟩
  have hi : i < n.toNat := by omega
  simp [big_csv, List.getElem?_map, List.getElem?_range, hi]

theorem c3_witness :
    (1 ≤ 1 ∧ ((1 : Nat) : Int) < 3)
    ∧ ((big_csv 3)[1]? = some (chunkOf 1)
      ∧ parseCsvLine (chunkOf 1) = ["Hello".toList, "world".toList, natStr 1]
      ∧ decodeNat (natStr 1) = 1) :=
  ⟨⟨by decide, by decide⟩, c3_data_rows 3 1 (by decide) (by decide)⟩

/-- Claim C4: for every row count, the buffered strategy's declared
Content-Length header value equals the byte length of the body it sends. -/
theorem c4_content_length_exact (n : Int) :
    ∃ v, getHeader (downloadCsvWith n) "Content-Length".toList = some v
      ∧ decodeNat v = byteLen ((downloadCsvWith n).body.drain) := by
  refine ⟨natStr (big_csv n).flatten.length, rfl, ?_⟩
  rw [decodeNat_natStr]
  exact (byteLen_big_csv_flatten n).symm

/-- Claim C5: for every `n ≥ 1`, the first chunk of `big_csv n` decodes to
exactly the header fields `One`, `Two`, `Three`. -/
theorem c5_header_first (n : Int) (h : 1 ≤ n) :
    (big_csv n)[0]? = some (chunkOf 0)
    ∧ parseCsvLine (chunkOf 0) = ["One".toList, "Two".toList, "Three".toList] := by
  refine ⟨?_, parse_chunkOf_zero⟩
  have h0 : 0 < n.toNat := by omega
  simp [big_csv, List.getElem?_map, List.getElem?_range, h0]

theorem c5_witness :
    (1 : Int) ≤ 2
    ∧ ((big_csv 2)[0]? = some (chunkOf 0)
      ∧ parseCsvLine (chunkOf 0) = ["One".toList, "Two".toList, "Three".toList]) :=
  ⟨by decide, c5_header_first 2 (by decide)⟩

/-- Claim C6: for row count 1, the produced body is the single header line
`One,Two,Three` followed by the encoder's `\r\n` terminator, and the buffered
response's Content-Length equals that line's byte length (15). -/
theorem c6_row_count_one :
    (downloadCsvWith 1).body.drain = "One,Two,Three\r\n".toList
    ∧ getHeader (downloadCsvWith 1) "Content-Length".toList = some (natStr 15)
    ∧ decodeNat (natStr 15) = 15
    ∧ byteLen ((downloadCsvWith 1).body.drain) = 15 := by
  refine ⟨by decide, by decide, by decide, by decide⟩

/-- Claim C7 counterexample: for the invalid (negative) row count `-3` the
system does not fail fast: no chunk is produced, yet response construction
proceeds and headers are built on both strategies. -/
theorem c7_counterexample :
    big_csv (-3) = [] ∧ (downloadCsvWith (-3)).headers ≠ []
    ∧ (downloadCsvStreamingWith (-3)).headers ≠ [] := by decide

/-- Claim C7 (amended): for every negative row count, no chunk is produced,
but nothing fails fast — response construction still proceeds, building the
attachment and Content-Length (value 0) headers over an empty body. -/
theorem c7_negative_builds_response (n : Int) (h : n < 0) :
    big_csv n = []
    ∧ (downloadCsvWith n).body.drain = []
    ∧ getHeader (downloadCsvWith n) "Content-Length".toList = some (natStr 0)
    ∧ (downloadCsvWith n).headers.length = 2
    ∧ (downloadCsvStreamingWith n).headers.length = 1 := by
  have h0 : n.toNat = 0 := by omega
  have hbig : big_csv n = [] := by simp [big_csv, h0]
  refine ⟨hbig, ?_, ?_, rfl, rfl⟩
  · show (big_csv n).flatten = []
    rw [hbig]
    rfl
  · show some (natStr (big_csv n).flatten.length) = some (natStr 0)
    rw [hbig]
    rfl

theorem c7_witness :
    (-7 : Int) < 0
    ∧ (big_csv (-7) = []
      ∧ (downloadCsvWith (-7)).body.drain = []
      ∧ getHeader (downloadCsvWith (-7)) "Content-Length".toList = some (natStr 0)
      ∧ (downloadCsvWith (-7)).headers.length = 2
      ∧ (downloadCsvStreamingWith (-7)).headers.length = 1) :=
  ⟨by decide, c7_negative_builds_response (-7) (by decide)⟩

/-- Claim C8 counterexample: neither call site passes 1000 to `big_csv` —
both `download_csv` (views.py line 26) and `download_csv_streaming`
(views.py line 40) pass the literal 100. -/
theorem c8_counterexample :
    rowCountBuffered = 100 ∧ rowCountStreaming = 100
    ∧ rowCountBuffered ≠ 1000 ∧ rowCountStreaming ≠ 1000 := by decide

/-- Claim C8 (amended): the row-count parameter is illustrated with the
literal value 100 at both call sites, one per delivery-strategy handler. -/
theorem c8_both_call_sites_100 :
    rowCountBuffered = 100 ∧ rowCountStreaming = 100
    ∧ download_csv = downloadCsvWith 100
    ∧ download_csv_streaming = downloadCsvStreamingWith 100 :=
  ⟨rfl, rfl, rfl, rfl⟩

/-- Claim C9: the row producer is deterministic and re-entrant — a fresh
generator (the suspended-loop semantics of one `big_csv(n)` call) run to
exhaustion yields exactly the mathematical chunk sequence, so any two calls
with the same `n` produce sequences of equal length that agree at every
position. -/
theorem c9_deterministic_reentrant (n : Int) :
    genRun (mkGen n) = big_csv n
    ∧ (genRun (mkGen n)).length = (big_csv n).length
    ∧ ∀ i : Nat, (genRun (mkGen n))[i]? = (big_csv n)[i]? := by
  have h := genRun_eq_big_csv n
  exact ⟨h, by rw [h], fun i => by rw [h]⟩

/-- Claim C10: for every negative `num_rows`, `big_csv num_rows` yields the
empty sequence without error, identically to `num_rows = 0` (the iteration
over `range(num_rows)` is vacuous). -/
theorem c10_negative_is_empty (n : Int) (h : n < 0) :
    big_csv n = [] ∧ big_csv n = big_csv 0 := by
  have h0 : n.toNat = 0 := by omega
  have hbig : big_csv n = [] := by simp [big_csv, h0]
  exact ⟨hbig, by rw [hbig]; rfl⟩

theorem c10_witness :
    (-2 : Int) < 0 ∧ (big_csv (-2) = [] ∧ big_csv (-2) = big_csv 0) :=
  ⟨by decide, c10_negative_is_empty (-2) (by decide)⟩
